import Mathlib

/-!
Verification of the self-driving-car demo script (Final.py) against its
natural-language specification.  The script's data model and per-frame
operations are embedded shallowly: pixel values and clock readings become
rationals, the steering angle arithmetic (which uses a real power 2/3)
becomes real arithmetic, stateful buffer updates become an explicit heap
of image buffers, and fallible operations return Option.
-/

set_option linter.unusedVariables false

namespace Final

/-! ## The steering-angle smoothing filter

Embeds the update in SelfDrivingCarSimulator._update_display:

  self.smoothed_angle += 0.2 * pow(abs(degrees - self.smoothed_angle), 2.0/3.0)
      * (degrees - self.smoothed_angle) / abs(degrees - self.smoothed_angle)
-/

/-- The raw right-hand side of the smoothing update, as written in the
source (total: Lean division by zero yields 0, which coincides with the
sign convention sign 0 = 0). -/
noncomputable def smoothStep (smoothed degrees : ℝ) : ℝ :=
  smoothed + 0.2 * |degrees - smoothed| ^ ((2 : ℝ) / 3)
    * (degrees - smoothed) / |degrees - smoothed|

/-- The smoothing update as a fallible operation: the source divides by
abs(degrees - smoothed_angle), so the update is undefined (none) exactly
when that divisor is zero. -/
noncomputable def smoothedUpdate (smoothed degrees : ℝ) : Option ℝ :=
  if |degrees - smoothed| = 0 then none else some (smoothStep smoothed degrees)

/-- Iterating the smoothing update from smoothed_angle = 0 on a constant
predicted angle. -/
noncomputable def smoothIter (degrees : ℝ) : ℕ → ℝ
  | 0 => 0
  | n + 1 => smoothStep (smoothIter degrees n) degrees

/-- C1: the smoothing update divides by abs(degrees - smoothed_angle); it is
undefined exactly when degrees equals the current smoothed angle, and
well-defined whenever they differ. -/
theorem smoothedUpdate_none_iff (s d : ℝ) : smoothedUpdate s d = none ↔ d = s := by
  unfold smoothedUpdate
  split
  · rename_i h
    rw [abs_eq_zero, sub_eq_zero] at h
    simp [h]
  · rename_i h
    simp only [reduceCtorEq, false_iff]
    intro hds
    exact h (by simp [hds])

/-- A cube composed with the real power 2/3 collapses to a square, for a
nonnegative base. -/
theorem cube_rpow_twothirds (x : ℝ) (hx : 0 ≤ x) :
    ((x ^ (3 : ℕ) : ℝ)) ^ ((2 : ℝ) / 3) = x ^ (2 : ℕ) := by
  rw [← Real.rpow_natCast x 3, ← Real.rpow_mul hx]
  have h3 : ((3 : ℕ) : ℝ) * ((2 : ℝ) / 3) = ((2 : ℕ) : ℝ) := by push_cast; ring
  rw [h3, Real.rpow_natCast]

/-- A cube composed with the real power 1/3 collapses to the base, for a
nonnegative base. -/
theorem cube_rpow_third (x : ℝ) (hx : 0 ≤ x) :
    ((x ^ (3 : ℕ) : ℝ)) ^ ((1 : ℝ) / 3) = x := by
  rw [← Real.rpow_natCast x 3, ← Real.rpow_mul hx]
  have h3 : ((3 : ℕ) : ℝ) * ((1 : ℝ) / 3) = 1 := by push_cast; ring
  rw [h3, Real.rpow_one]

/-- When the target is above the current value the update adds the damped
power-law step. -/
theorem smoothStep_of_lt (s D : ℝ) (h : s < D) :
    smoothStep s D = s + 0.2 * (D - s) ^ ((2 : ℝ) / 3) := by
  unfold smoothStep
  rw [abs_of_pos (by linarith : 0 < D - s), mul_div_assoc,
    div_self (by linarith : D - s ≠ 0), mul_one]

/-- When the target is below the current value the update subtracts the
damped power-law step. -/
theorem smoothStep_of_gt (s D : ℝ) (h : D < s) :
    smoothStep s D = s - 0.2 * (s - D) ^ ((2 : ℝ) / 3) := by
  unfold smoothStep
  rw [abs_of_neg (by linarith : D - s < 0)]
  have h1 : -(D - s) = s - D := by ring
  have h2 : D - s = -(s - D) := by ring
  rw [h1, h2, mul_neg, neg_div, mul_div_assoc,
    div_self (by linarith : s - D ≠ 0), mul_one]
  ring

/-- For gaps of at least 1/125 = 0.2 cubed, the damped step does not exceed
the gap. -/
theorem damped_step_le (x : ℝ) (hx : 1 / 125 ≤ x) :
    0.2 * x ^ ((2 : ℝ) / 3) ≤ x := by
  have hx0 : (0 : ℝ) < x := lt_of_lt_of_le (by norm_num) hx
  have hroot : (1 / 5 : ℝ) ≤ x ^ ((1 : ℝ) / 3) := by
    have hc : ((1 / 125 : ℝ)) ^ ((1 : ℝ) / 3) = 1 / 5 := by
      have hb : ((1 / 125 : ℝ)) = (1 / 5 : ℝ) ^ (3 : ℕ) := by norm_num
      rw [hb, cube_rpow_third (1 / 5 : ℝ) (by norm_num)]
    calc (1 / 5 : ℝ) = ((1 / 125 : ℝ)) ^ ((1 : ℝ) / 3) := hc.symm
      _ ≤ x ^ ((1 : ℝ) / 3) := Real.rpow_le_rpow (by norm_num) hx (by norm_num)
  calc 0.2 * x ^ ((2 : ℝ) / 3)
      ≤ x ^ ((1 : ℝ) / 3) * x ^ ((2 : ℝ) / 3) := by
        apply mul_le_mul_of_nonneg_right _ (Real.rpow_nonneg hx0.le _)
        linarith [hroot]
    _ = x ^ ((1 : ℝ) / 3 + (2 : ℝ) / 3) := (Real.rpow_add hx0 _ _).symm
    _ = x ^ (1 : ℝ) := by norm_num
    _ = x := Real.rpow_one x

/-- The damped step is strictly positive on a positive gap. -/
theorem damped_step_pos (x : ℝ) (hx : 0 < x) : 0 < 0.2 * x ^ ((2 : ℝ) / 3) :=
  mul_pos (by norm_num) (Real.rpow_pos_of_pos hx _)

/-- C3 counterexample: from smoothed_angle = 0 with the constant prediction
D = 1/1000, the very first smoothing step lands at 1/500, strictly beyond D,
so the iterates do not stay on the starting side of D. -/
theorem smoothIter_overshoots :
    smoothIter (1 / 1000) 1 = 1 / 500 ∧ (1 / 1000 : ℝ) < smoothIter (1 / 1000) 1 := by
  have h1 : smoothIter (1 / 1000) 1 = smoothStep 0 (1 / 1000) := by
    show smoothStep (smoothIter (1 / 1000) 0) (1 / 1000) = _
    rfl
  have h2 : smoothStep 0 (1 / 1000) = (1 / 500 : ℝ) := by
    rw [smoothStep_of_lt 0 (1 / 1000) (by norm_num)]
    have hb : ((1 / 1000 : ℝ) - 0) = (1 / 10 : ℝ) ^ (3 : ℕ) := by norm_num
    rw [hb, cube_rpow_twothirds (1 / 10 : ℝ) (by norm_num)]
    norm_num
  refine ⟨h1.trans h2, ?_⟩
  rw [h1, h2]
  norm_num

/-- C3 amended: whenever the gap between the constant prediction D and the
current smoothed value is at least 1/125 (= 0.2 cubed), one smoothing step
moves strictly closer to D and does not cross to the other side of D. -/
theorem smoothStep_approaches (D s : ℝ) (hgap : 1 / 125 ≤ |D - s|) :
    |D - smoothStep s D| < |D - s| ∧ 0 ≤ (D - smoothStep s D) * (D - s) := by
  rcases lt_trichotomy s D with hlt | heq | hgt
  · have hd : 1 / 125 ≤ D - s := by rwa [abs_of_pos (by linarith : 0 < D - s)] at hgap
    have hstep := smoothStep_of_lt s D hlt
    have hle := damped_step_le (D - s) hd
    have hpos := damped_step_pos (D - s) (by linarith)
    rw [hstep, abs_of_pos (by linarith : 0 < D - s),
      abs_of_nonneg (by linarith : 0 ≤ D - (s + 0.2 * (D - s) ^ ((2 : ℝ) / 3)))]
    constructor
    · linarith
    · have h1 : 0 ≤ D - (s + 0.2 * (D - s) ^ ((2 : ℝ) / 3)) := by linarith
      exact mul_nonneg h1 (by linarith)
  · rw [heq] at hgap
    simp at hgap
    linarith
  · have hd : 1 / 125 ≤ s - D := by
      rwa [abs_of_neg (by linarith : D - s < 0), neg_sub] at hgap
    have hstep := smoothStep_of_gt s D hgt
    have hle := damped_step_le (s - D) hd
    have hpos := damped_step_pos (s - D) (by linarith)
    rw [hstep, abs_of_neg (by linarith : D - s < 0),
      abs_of_nonpos (by linarith : D - (s - 0.2 * (s - D) ^ ((2 : ℝ) / 3)) ≤ 0)]
    constructor
    · linarith
    · have h1 : D - (s - 0.2 * (s - D) ^ ((2 : ℝ) / 3)) ≤ 0 := by linarith
      exact mul_nonneg_of_nonpos_of_nonpos h1 (by linarith)

/-- Witness for the amended C3 theorem at D = 1, s = 0. -/
theorem smoothStep_approaches_witness :
    |1 - smoothStep 0 1| < |(1 : ℝ) - 0| ∧ 0 ≤ (1 - smoothStep 0 1) * ((1 : ℝ) - 0) :=
  smoothStep_approaches 1 0 (by rw [sub_zero, abs_one]; norm_num)

/-! ## Angle unit conversion

Embeds the tail of SteeringAnglePredictor.predict_angle:
  return radian_angle * 180.0 / np.pi
-/

/-- The output conversion applied to the model's raw scalar. -/
noncomputable def radiansToDegrees (radian_angle : ℝ) : ℝ :=
  radian_angle * 180 / Real.pi

/-- C10: predict_angle converts radians to degrees by multiplying with
180/pi, and pi radians comes out as exactly 180 degrees, hence within the
1e-6 tolerance. -/
theorem radiansToDegrees_pi :
    (∀ r : ℝ, radiansToDegrees r = r * (180 / Real.pi)) ∧
    radiansToDegrees Real.pi = 180 ∧
    |radiansToDegrees Real.pi - 180| ≤ 1 / 1000000 := by
  have hpi : radiansToDegrees Real.pi = 180 := by
    unfold radiansToDegrees
    rw [mul_comm, mul_div_assoc, div_self Real.pi_ne_zero, mul_one]
  refine ⟨fun r => by unfold radiansToDegrees; ring, hpi, ?_⟩
  rw [hpi]
  norm_num

/-! ## The frame-rate throttle

Embeds the tail of the loop body in start_simulation:

  if time.time() - start_time < frame_interval:
      time.sleep(frame_interval - (time.time() - start_time))

time.time() is called twice: t1 for the check and t2 for the sleep amount.
The result is some d when time.sleep is invoked with duration d, and none
when the sleep is skipped.
-/

/-- The throttle step, given the loop-start reading and the two subsequent
clock readings. -/
def throttleSleep (frame_interval start_time t1 t2 : ℚ) : Option ℚ :=
  if t1 - start_time < frame_interval then some (frame_interval - (t2 - start_time))
  else none

/-- C7 counterexample: with monotone clock readings start = 0, t1 = 0,
t2 = 1 and the default interval 1/30, the throttle invokes sleep with the
negative duration 1/30 - 1. -/
theorem throttleSleep_negative :
    (0 : ℚ) ≤ 0 ∧ (0 : ℚ) ≤ 1 ∧
    throttleSleep (1 / 30) 0 0 1 = some (1 / 30 - 1) ∧ (1 / 30 - 1 : ℚ) < 0 := by
  refine ⟨le_refl 0, by norm_num, ?_, by norm_num⟩
  unfold throttleSleep
  norm_num

/-- C7 amended: the sleep is skipped when the first elapsed reading reaches
the interval; when invoked, the duration is non-negative provided the second
clock reading still shows elapsed time at most the interval. -/
theorem throttleSleep_nonneg (frame_interval start_time t1 t2 : ℚ)
    (h1 : t1 - start_time < frame_interval)
    (h2 : t2 - start_time ≤ frame_interval) :
    ∃ d, throttleSleep frame_interval start_time t1 t2 = some d ∧ 0 ≤ d := by
  refine ⟨frame_interval - (t2 - start_time), ?_, by linarith⟩
  unfold throttleSleep
  rw [if_pos h1]

/-- Witness for the amended C7 theorem with all readings at 0 and interval 1. -/
theorem throttleSleep_nonneg_witness :
    ∃ d, throttleSleep 1 0 0 0 = some d ∧ 0 ≤ d :=
  throttleSleep_nonneg 1 0 0 0 (by norm_num) (by norm_num)

/-! ## Steering-model input preprocessing

Embeds the two preprocessing sites.  In start_simulation:

  resized_image = cv2.resize(full_image[-150:], (200, 66)) / 255.0

and in SteeringAnglePredictor.preprocess_image (called by predict_angle on
that already-normalized array):

  image = cv2.resize(image, (200, 66))
  image = image / 255.0

Images are lists of rows of rational pixel values; cv2.resize is an
external library call and is passed in as a function (the evaluation below
instantiates it with the identity, which is what resizing an array to its
own size performs).  np.expand_dims only wraps a batch axis around the data
and is omitted.
-/

/-- One image channel: rows of pixel values. -/
abbrev RawImage := List (List ℚ)

/-- Python's full_image[-150 colon] on the row axis: the bottom n rows. -/
def cropBottom (n : ℕ) (img : RawImage) : RawImage :=
  img.drop (img.length - n)

/-- Pixel-wise division by 255. -/
def normalize255 (img : RawImage) : RawImage :=
  img.map (fun row => row.map (fun v => v / 255))

/-- SteeringAnglePredictor.preprocess_image: resize, then divide by 255. -/
def preprocess_image (resize : RawImage → RawImage) (image : RawImage) : RawImage :=
  normalize255 (resize image)

/-- The resized_image computed in the simulator loop: crop the bottom 150
rows, resize, divide by 255. -/
def loopResizedImage (resize : RawImage → RawImage) (full_image : RawImage) : RawImage :=
  normalize255 (resize (cropBottom 150 full_image))

/-- The array that actually reaches self.model.predict: predict_angle runs
preprocess_image on the loop's already-preprocessed array. -/
def arrayPassedToModel (resizeLoop resizePredict : RawImage → RawImage)
    (full_image : RawImage) : RawImage :=
  preprocess_image resizePredict (loopResizedImage resizeLoop full_image)

/-- C2 evaluation at the failing input: a frame whose single pixel holds the
raw value 255 reaches the forward pass as 1/255, not 1, because the
division by 255 is applied twice (once in start_simulation, once again in
preprocess_image). -/
theorem arrayPassedToModel_double_normalized :
    arrayPassedToModel id id [[255]] = [[1 / 255]] ∧
    arrayPassedToModel id id [[255]] ≠ [[1]] ∧ (1 / 255 : ℚ) ≠ 1 := by
  have h : arrayPassedToModel id id [[255]] = [[1 / 255]] := by
    simp only [arrayPassedToModel, preprocess_image, loopResizedImage, normalize255,
      cropBottom, id_eq, List.length_cons, List.length_nil, List.map_cons, List.map_nil]
    norm_num
  refine ⟨h, ?_, by norm_num⟩
  rw [h]
  intro hcontra
  simp only [List.cons.injEq, and_true] at hcontra
  norm_num at hcontra

/-! ## Constructor paths

Embeds SelfDrivingCarSimulator.__init__: the data_path and img_path
parameters carry (bogus) string annotations and are never read; the body
hardcodes both paths.  start_simulation builds each frame path from
self.data_path.
-/

structure SimulatorPaths where
  data_path : String
  wheel_image_path : String
  deriving DecidableEq

/-- The paths recorded by the constructor, as functions of its two
arguments. -/
def simulatorInitPaths (data_path img_path : String) : SimulatorPaths :=
  { data_path := "data/driving_dataset"
    wheel_image_path := "data/steering_wheel_image.jpg" }

/-- The per-frame file path built in start_simulation. -/
def framePath (paths : SimulatorPaths) (i : ℕ) : String :=
  paths.data_path ++ "/" ++ toString i ++ ".jpg"

/-- C6: the constructor arguments have no effect; the dataset directory and
the steering-wheel image path are the fixed strings, and every frame path
derived from them is the same for any pair of constructor arguments. -/
theorem simulatorInitPaths_fixed (a b a' b' : String) (i : ℕ) :
    simulatorInitPaths a b = simulatorInitPaths a' b' ∧
    (simulatorInitPaths a b).data_path = "data/driving_dataset" ∧
    (simulatorInitPaths a b).wheel_image_path = "data/steering_wheel_image.jpg" ∧
    framePath (simulatorInitPaths a b) i = framePath (simulatorInitPaths a' b') i :=
  ⟨rfl, rfl, rfl, rfl⟩

/-! ## Steering-wheel rotation geometry

Embeds the wheel handling in SelfDrivingCarSimulator.__init__:

  self.img = cv2.imread("data/steering_wheel_image.jpg", 0)   # 2-D, shape (rows, cols)
  self.cols, self.rows = self.img.shape

and in _update_display:

  M = cv2.getRotationMatrix2D((self.cols / 2, self.rows / 2), -self.smoothed_angle, 1)
  dst = cv2.warpAffine(self.img, M, (self.cols, self.rows))

A grayscale cv2 image has shape (height, width); cv2.getRotationMatrix2D
takes the rotation center as an (x, y) point, and cv2.warpAffine takes the
destination size as a (width, height) pair and returns an image of exactly
that size.
-/

/-- A grayscale image, by its dimensions.  numpy's shape for a 2-D array
is (height, width). -/
structure GrayImage where
  height : ℕ
  width : ℕ
  deriving DecidableEq

/-- The dimensions recorded at construction: the destructuring
self.cols, self.rows = self.img.shape binds cols to shape[0] (the height)
and rows to shape[1] (the width). -/
structure WheelState where
  cols : ℕ
  rows : ℕ
  deriving DecidableEq

def initWheel (img : GrayImage) : WheelState :=
  { cols := img.height, rows := img.width }

/-- The (x, y) center handed to cv2.getRotationMatrix2D. -/
def rotationCenter (st : WheelState) : ℚ × ℚ :=
  ((st.cols : ℚ) / 2, (st.rows : ℚ) / 2)

/-- The angle handed to cv2.getRotationMatrix2D. -/
def rotationAngle (smoothed_angle : ℚ) : ℚ := -smoothed_angle

/-- cv2.warpAffine returns an image whose (width, height) is exactly the
dsize argument. -/
def warpAffineOutput (dsize : ℕ × ℕ) : GrayImage :=
  { width := dsize.1, height := dsize.2 }

/-- The rotated wheel image produced by _update_display: dsize is the pair
(self.cols, self.rows). -/
def rotatedWheel (st : WheelState) : GrayImage :=
  warpAffineOutput (st.cols, st.rows)

/-- The true center (x, y) of an image. -/
def imageCenter (img : GrayImage) : ℚ × ℚ :=
  ((img.width : ℚ) / 2, (img.height : ℚ) / 2)

/-- C4 counterexample: for a 100-tall, 200-wide wheel image, the rotated
output does not keep the reference dimensions (its width becomes 100), and
the rotation center handed to cv2 is (50, 100), not the image center
(100, 50). -/
theorem rotatedWheel_dims_swapped :
    (rotatedWheel (initWheel ⟨100, 200⟩)).width ≠ (⟨100, 200⟩ : GrayImage).width ∧
    rotationCenter (initWheel ⟨100, 200⟩) ≠ imageCenter ⟨100, 200⟩ := by
  constructor
  · show (100 : ℕ) ≠ 200
    norm_num
  · intro h
    have h1 : ((100 : ℕ) : ℚ) / 2 = ((200 : ℕ) : ℚ) / 2 := congrArg Prod.fst h
    norm_num at h1

/-- C4 amended: the wheel is rotated by -smoothed_angle, but about the
point (height/2, width/2) - the image's own center only when the image is
square - and the output image has the reference image's width and height
interchanged (the shape components are unpacked in swapped order). -/
theorem rotatedWheel_spec (img : GrayImage) (a : ℚ) :
    rotationAngle a = -a ∧
    (rotatedWheel (initWheel img)).width = img.height ∧
    (rotatedWheel (initWheel img)).height = img.width ∧
    (rotationCenter (initWheel img) = imageCenter img ↔ img.height = img.width) := by
  refine ⟨rfl, rfl, rfl, ?_⟩
  constructor
  · intro h
    have h1 : (img.height : ℚ) / 2 = (img.width : ℚ) / 2 := congrArg Prod.fst h
    have h2 : (img.height : ℚ) = (img.width : ℚ) := by linarith
    exact_mod_cast h2
  · intro h
    simp [rotationCenter, imageCenter, initWheel, h]

/-! ## The frame loop

Embeds the while-loop skeleton of start_simulation:

  i = 0
  while True:
      full_image = cv2.imread(f"...{i}.jpg")
      if full_image is None: break            # first missing index ends the run
      ... process frame i ...
      i += 1
      if cv2.waitKey(1) & 0xFF == ord(q): break
  cv2.destroyAllWindows()

present i says whether frame i's file loads; quitKey i says whether the
user quit signal arrives after processing frame i.  Fuel makes the
recursion structural; any fuel beyond the number of frames gives the same
run. -/

inductive StopReason where
  | missingFrame (i : ℕ)
  | userQuit
  | fuelOut
  deriving DecidableEq

/-- The loop: returns the list of processed frame indices in order,
together with the reason the loop stopped. -/
def simLoop (present quitKey : ℕ → Bool) : ℕ → ℕ → List ℕ × StopReason
  | 0, _ => ([], StopReason.fuelOut)
  | fuel + 1, i =>
    if present i then
      if quitKey i then ([i], StopReason.userQuit)
      else
        let rest := simLoop present quitKey fuel (i + 1)
        (i :: rest.1, rest.2)
    else ([], StopReason.missingFrame i)

/-- Auxiliary: from any start index i ≤ n, a contiguous dataset 0..n-1 with
no quit signal yields exactly the indices i..n-1 and stops at the missing
index n. -/
theorem simLoop_range' (n : ℕ) : ∀ fuel i, i ≤ n → n - i < fuel →
    simLoop (fun k => decide (k < n)) (fun _ => false) fuel i =
      (List.range' i (n - i), StopReason.missingFrame n) := by
  intro fuel
  induction fuel with
  | zero => intro i hi hf; omega
  | succ fuel ih =>
    intro i hi hf
    by_cases hin : i < n
    · have hrec := ih (i + 1) (by omega) (by omega)
      have hrange : List.range' i (n - i) = i :: List.range' (i + 1) (n - (i + 1)) := by
        have hni : n - i = (n - (i + 1)) + 1 := by omega
        rw [hni, List.range'_succ]
      simp only [simLoop, hrec]
      rw [if_pos (show decide (i < n) = true by simp [hin])]
      rw [if_neg (show ¬(false = true) by simp)]
      rw [hrange]
    · have hieq : i = n := by omega
      subst hieq
      simp only [simLoop]
      rw [if_neg (show ¬(decide (i < i) = true) by simp)]
      rw [Nat.sub_self]
      rfl

/-- C5: with frames 0..n-1 present contiguously, frame n absent, and no
quit signal, the loop processes exactly the indices 0, 1, ..., n-1, each
once and in increasing order, and stops because index n fails to load. -/
theorem simLoop_processes_all (n fuel : ℕ) (hfuel : n < fuel) :
    simLoop (fun k => decide (k < n)) (fun _ => false) fuel 0 =
      (List.range n, StopReason.missingFrame n) := by
  have h := simLoop_range' n fuel 0 (Nat.zero_le n) (by omega)
  rwa [Nat.sub_zero, ← List.range_eq_range'] at h

/-- Witness for the C5 theorem: three frames, fuel five. -/
theorem simLoop_processes_all_witness :
    simLoop (fun k => decide (k < 3)) (fun _ => false) 5 0 =
      (List.range 3, StopReason.missingFrame 3) :=
  simLoop_processes_all 3 5 (by norm_num)

/-! ## Segmentation overlay rendering

Embeds ImageSegmentation.process and its drawing helpers:

  overlay = img.copy()
  ... (inference producing lane masks and object detections) ...
  self._draw_lane_overlay(overlay, lane_results)    # cv2.fillPoly onto overlay
  self._draw_object_overlay(overlay, object_results) # fillPoly/rectangle/putText onto overlay
  return cv2.addWeighted(overlay, alpha, img, 1 - alpha, 0)

Images are flat lists of RGB pixels.  cv2's rasterization of a polygon,
rectangle outline, label background and label text to the pixels they
touch is the library's business; each drawing call is embedded as writing
a fixed color through a boolean pixel mask.  Mutation is made explicit by
a heap of image buffers addressed by index: img.copy() and cv2.addWeighted
allocate fresh buffers, the drawing calls write in place to the buffer
they are handed. -/

abbrev Pixel := ℚ × ℚ × ℚ

abbrev Image := List Pixel

/-- Writing a color through a pixel mask (the effect of one cv2 drawing
call on the buffer it targets). -/
def fillMasked (mask : List Bool) (color : Pixel) (img : Image) : Image :=
  List.zipWith (fun m v => if m then color else v) mask img

/-- The fixed light-green lane color (144, 238, 144). -/
def laneColor : Pixel := (144, 238, 144)

/-- The white label text color (255, 255, 255). -/
def whiteColor : Pixel := (255, 255, 255)

/-- One object detection, reduced to the pixels its four drawing calls
touch (mask polygon, bounding-box outline, label background, label text)
and its class id. -/
structure Detection where
  maskPoly : List Bool
  boxOutline : List Bool
  labelBg : List Bool
  labelText : List Bool
  classId : ℕ

/-- _draw_lane_overlay: fill every lane mask with the lane color. -/
def drawLaneOverlay (laneMasks : List (List Bool)) (overlay : Image) : Image :=
  laneMasks.foldl (fun acc m => fillMasked m laneColor acc) overlay

/-- The four drawing calls for one detection: fillPoly with the class
color, the bounding rectangle, the filled label background, the white
label text. -/
def drawDetection (colors : List Pixel) (acc : Image) (d : Detection) : Image :=
  let color := colors.getD d.classId (0, 0, 0)
  fillMasked d.labelText whiteColor
    (fillMasked d.labelBg color
      (fillMasked d.boxOutline color
        (fillMasked d.maskPoly color acc)))

/-- _draw_object_overlay over all detections. -/
def drawObjectOverlay (colors : List Pixel) (dets : List Detection) (overlay : Image) : Image :=
  dets.foldl (drawDetection colors) overlay

/-- cv2.addWeighted: the pixel-wise blend alpha * a + beta * b + gamma. -/
def addWeighted (a : Image) (alpha : ℚ) (b : Image) (beta : ℚ) (gamma : ℚ) : Image :=
  List.zipWith (fun p q : Pixel =>
    (alpha * p.1 + beta * q.1 + gamma,
     alpha * p.2.1 + beta * q.2.1 + gamma,
     alpha * p.2.2 + beta * q.2.2 + gamma)) a b

/-- The buffer heap: image buffers addressed by allocation index. -/
abbrev Heap := List Image

def heapGet (heap : Heap) (i : ℕ) : Image := heap.getD i []

/-- ImageSegmentation.process over the heap: copy the input into a fresh
overlay buffer, draw both overlays in place on it, then allocate the
blended result.  Returns the final heap and the index of the returned
buffer. -/
def process (heap : Heap) (imgId : ℕ) (laneMasks : List (List Bool))
    (dets : List Detection) (colors : List Pixel) (alpha : ℚ) : Heap × ℕ :=
  let overlayId := heap.length
  let heap1 := heap ++ [heapGet heap imgId]
  let heap2 := heap1.set overlayId (drawLaneOverlay laneMasks (heapGet heap1 overlayId))
  let heap3 := heap2.set overlayId (drawObjectOverlay colors dets (heapGet heap2 overlayId))
  (heap3 ++ [addWeighted (heapGet heap3 overlayId) alpha (heapGet heap3 imgId) (1 - alpha) 0],
   heap3.length)

/-- Lookups below the old length pass through an append. -/
theorem heapGet_append (heap : Heap) (img : Image) (i : ℕ) (h : i < heap.length) :
    heapGet (heap ++ [img]) i = heapGet heap i := by
  unfold heapGet
  rw [List.getD_eq_getElem?_getD, List.getD_eq_getElem?_getD, List.getElem?_append_left h]

/-- Lookups at a different index pass through a set. -/
theorem heapGet_set_ne (heap : Heap) (img : Image) (i j : ℕ) (h : i ≠ j) :
    heapGet (heap.set i img) j = heapGet heap j := by
  unfold heapGet
  rw [List.getD_eq_getElem?_getD, List.getD_eq_getElem?_getD, List.getElem?_set_ne h]

/-- C8: process never writes to the input frame's buffer - every drawing
call targets the overlay copy - and the buffer it returns is a fresh
allocation, distinct from the input buffer. -/
theorem process_preserves_input (heap : Heap) (imgId : ℕ)
    (laneMasks : List (List Bool)) (dets : List Detection) (colors : List Pixel)
    (alpha : ℚ) (h : imgId < heap.length) :
    heapGet (process heap imgId laneMasks dets colors alpha).1 imgId = heapGet heap imgId ∧
    (process heap imgId laneMasks dets colors alpha).2 ≠ imgId := by
  unfold process
  have hne : heap.length ≠ imgId := by omega
  have h1 : imgId < (heap ++ [heapGet heap imgId]).length := by
    rw [List.length_append]
    omega
  have h2 : imgId <
      ((heap ++ [heapGet heap imgId]).set heap.length
        (drawLaneOverlay laneMasks (heapGet (heap ++ [heapGet heap imgId]) heap.length))).length := by
    rw [List.length_set, List.length_append]
    omega
  constructor
  · rw [heapGet_append _ _ _ (by rw [List.length_set]; exact h2),
      heapGet_set_ne _ _ _ _ hne, heapGet_set_ne _ _ _ _ hne,
      heapGet_append _ _ _ h]
  · simp only [List.length_set, List.length_append, List.length_cons, List.length_nil]
    omega

/-- Witness for the C8 theorem on a one-buffer heap holding a single-pixel
image. -/
theorem process_preserves_input_witness :
    heapGet (process [[(1, 2, 3)]] 0 [] [] [] (1 / 2)).1 0 = heapGet [[(1, 2, 3)]] 0 ∧
    (process [[(1, 2, 3)]] 0 [] [] [] (1 / 2)).2 ≠ 0 :=
  process_preserves_input [[(1, 2, 3)]] 0 [] [] [] (1 / 2) (by norm_num)

/-! ## The class-color palette

Embeds ImageSegmentation._generate_colors:

  for i in range(num_classes):
      hue = i / num_classes
      rgb = colorsys.hsv_to_rgb(hue, 0.9, 0.9)
      colors.append(tuple(int(x * 255) for x in rgb))

together with CPython's colorsys.hsv_to_rgb (sextant decomposition) and
Python's int(), which truncates toward zero. -/

/-- Python's int() on a rational: truncation toward zero. -/
def pyInt (x : ℚ) : ℤ :=
  if x < 0 then -(Int.floor (-x)) else Int.floor x

/-- The six-way branch at the end of colorsys.hsv_to_rgb. -/
def hsvSextant (k : ℕ) (v t p q : ℚ) : ℚ × ℚ × ℚ :=
  match k with
  | 0 => (v, t, p)
  | 1 => (q, v, p)
  | 2 => (p, v, t)
  | 3 => (p, q, v)
  | 4 => (t, p, v)
  | _ => (v, p, q)

/-- CPython colorsys.hsv_to_rgb. -/
def hsv_to_rgb (h s v : ℚ) : ℚ × ℚ × ℚ :=
  if s = 0 then (v, v, v)
  else
    let i := pyInt (h * 6)
    let f := h * 6 - i
    let p := v * (1 - s)
    let q := v * (1 - s * f)
    let t := v * (1 - s * (1 - f))
    hsvSextant (i % 6).toNat v t p q

/-- The color appended for class index i out of num_classes. -/
def colorOfIndex (num_classes i : ℕ) : ℤ × ℤ × ℤ :=
  let hue : ℚ := (i : ℚ) / (num_classes : ℚ)
  let rgb := hsv_to_rgb hue (9 / 10) (9 / 10)
  (pyInt (rgb.1 * 255), pyInt (rgb.2.1 * 255), pyInt (rgb.2.2 * 255))

/-- _generate_colors: the palette for num_classes classes. -/
def generate_colors (num_classes : ℕ) : List (ℤ × ℤ × ℤ) :=
  (List.range num_classes).map (colorOfIndex num_classes)

/-- Evaluation rule for pyInt on a nonnegative value lying in [n, n+1). -/
theorem pyInt_eval (x : ℚ) (n : ℤ) (h0 : 0 ≤ x) (h1 : (n : ℚ) ≤ x)
    (h2 : x < (n : ℚ) + 1) : pyInt x = n := by
  unfold pyInt
  rw [if_neg (not_lt.mpr h0), Int.floor_eq_iff]
  constructor
  · exact_mod_cast h1
  · exact_mod_cast h2

/-- hsv_to_rgb on a hue in the first sextant. -/
theorem hsv_to_rgb_sextant0 (h : ℚ) (h0 : 0 ≤ h) (h6 : h * 6 < 1) :
    hsv_to_rgb h (9 / 10) (9 / 10) =
      (9 / 10, 9 / 10 * (1 - 9 / 10 * (1 - h * 6)), 9 / 10 * (1 - 9 / 10)) := by
  have hpy : pyInt (h * 6) = 0 :=
    pyInt_eval _ 0 (by positivity) (by norm_num [mul_nonneg h0]) (by push_cast; linarith)
  unfold hsv_to_rgb
  rw [if_neg (by norm_num : ¬(9 / 10 : ℚ) = 0)]
  rw [hpy]
  norm_num [hsvSextant]

/-- The palette entry at index 2 of 2000 classes. -/
theorem colorOfIndex_2000_2 : colorOfIndex 2000 2 = (229, 24, 22) := by
  have hc : ((2 : ℕ) : ℚ) / ((2000 : ℕ) : ℚ) = 1 / 1000 := by norm_num
  simp only [colorOfIndex, hc]
  rw [hsv_to_rgb_sextant0 (1 / 1000) (by norm_num) (by norm_num)]
  simp only [Prod.mk.injEq]
  refine ⟨?_, ?_, ?_⟩
  · exact pyInt_eval _ 229 (by norm_num) (by norm_num) (by norm_num)
  · exact pyInt_eval _ 24 (by norm_num) (by norm_num) (by norm_num)
  · exact pyInt_eval _ 22 (by norm_num) (by norm_num) (by norm_num)

/-- The palette entry at index 3 of 2000 classes: the same color as
index 2. -/
theorem colorOfIndex_2000_3 : colorOfIndex 2000 3 = (229, 24, 22) := by
  have hc : ((3 : ℕ) : ℚ) / ((2000 : ℕ) : ℚ) = 3 / 2000 := by norm_num
  simp only [colorOfIndex, hc]
  rw [hsv_to_rgb_sextant0 (3 / 2000) (by norm_num) (by norm_num)]
  simp only [Prod.mk.injEq]
  refine ⟨?_, ?_, ?_⟩
  · exact pyInt_eval _ 229 (by norm_num) (by norm_num) (by norm_num)
  · exact pyInt_eval _ 24 (by norm_num) (by norm_num) (by norm_num)
  · exact pyInt_eval _ 22 (by norm_num) (by norm_num) (by norm_num)

/-- C9 counterexample: for 2000 classes the palette is not pairwise
distinct - the entries at indices 2 and 3 are both (229, 24, 22). -/
theorem generate_colors_not_distinct : ¬(generate_colors 2000).Nodup := by
  intro hnd
  have hlen : (generate_colors 2000).length = 2000 := by
    simp [generate_colors]
  have hb2 : 2 < (generate_colors 2000).length := by omega
  have hb3 : 3 < (generate_colors 2000).length := by omega
  have h2 : (generate_colors 2000).get ⟨2, hb2⟩ = colorOfIndex 2000 2 := by
    simp [generate_colors]
  have h3 : (generate_colors 2000).get ⟨3, hb3⟩ = colorOfIndex 2000 3 := by
    simp [generate_colors]
  have heq : (generate_colors 2000).get ⟨2, hb2⟩ = (generate_colors 2000).get ⟨3, hb3⟩ := by
    rw [h2, h3, colorOfIndex_2000_2, colorOfIndex_2000_3]
  have hfin := (List.Nodup.get_inj_iff hnd).mp heq
  have hval : (2 : ℕ) = 3 := congrArg Fin.val hfin
  omega

/-- pyInt coincides with the floor on nonnegative arguments. -/
theorem pyInt_of_nonneg (x : ℚ) (h : 0 ≤ x) : pyInt x = Int.floor x := by
  unfold pyInt
  rw [if_neg (not_lt.mpr h)]

/-- Every component of every sextant stays within the bounds of v, t, p, q. -/
theorem hsvSextant_bounds (k : ℕ) (v t p q : ℚ)
    (hv0 : 0 ≤ v) (hv1 : v ≤ 1) (ht0 : 0 ≤ t) (ht1 : t ≤ 1)
    (hp0 : 0 ≤ p) (hp1 : p ≤ 1) (hq0 : 0 ≤ q) (hq1 : q ≤ 1) :
    (0 ≤ (hsvSextant k v t p q).1 ∧ (hsvSextant k v t p q).1 ≤ 1) ∧
    (0 ≤ (hsvSextant k v t p q).2.1 ∧ (hsvSextant k v t p q).2.1 ≤ 1) ∧
    (0 ≤ (hsvSextant k v t p q).2.2 ∧ (hsvSextant k v t p q).2.2 ≤ 1) := by
  match k with
  | 0 => exact ⟨⟨hv0, hv1⟩, ⟨ht0, ht1⟩, ⟨hp0, hp1⟩⟩
  | 1 => exact ⟨⟨hq0, hq1⟩, ⟨hv0, hv1⟩, ⟨hp0, hp1⟩⟩
  | 2 => exact ⟨⟨hp0, hp1⟩, ⟨hv0, hv1⟩, ⟨ht0, ht1⟩⟩
  | 3 => exact ⟨⟨hp0, hp1⟩, ⟨hq0, hq1⟩, ⟨hv0, hv1⟩⟩
  | 4 => exact ⟨⟨ht0, ht1⟩, ⟨hp0, hp1⟩, ⟨hv0, hv1⟩⟩
  | (m + 5) => exact ⟨⟨hv0, hv1⟩, ⟨hp0, hp1⟩, ⟨hq0, hq1⟩⟩

/-- hsv_to_rgb at saturation and value 9/10 written through hsvSextant. -/
theorem hsv_to_rgb_eq (h : ℚ) (hh : 0 ≤ h) :
    hsv_to_rgb h (9 / 10) (9 / 10) =
      hsvSextant ((Int.floor (h * 6) % 6).toNat) (9 / 10)
        (9 / 10 * (1 - 9 / 10 * (1 - (h * 6 - ((Int.floor (h * 6) : ℤ) : ℚ)))))
        (9 / 10 * (1 - 9 / 10))
        (9 / 10 * (1 - 9 / 10 * (h * 6 - ((Int.floor (h * 6) : ℤ) : ℚ)))) := by
  unfold hsv_to_rgb
  rw [if_neg (by norm_num : ¬(9 / 10 : ℚ) = 0), pyInt_of_nonneg _ (by positivity)]

/-- Every RGB component produced at saturation and value 9/10 from a
nonnegative hue lies in [0, 1]. -/
theorem hsv_component_bounds (h : ℚ) (hh : 0 ≤ h) :
    (0 ≤ (hsv_to_rgb h (9 / 10) (9 / 10)).1 ∧ (hsv_to_rgb h (9 / 10) (9 / 10)).1 ≤ 1) ∧
    (0 ≤ (hsv_to_rgb h (9 / 10) (9 / 10)).2.1 ∧ (hsv_to_rgb h (9 / 10) (9 / 10)).2.1 ≤ 1) ∧
    (0 ≤ (hsv_to_rgb h (9 / 10) (9 / 10)).2.2 ∧ (hsv_to_rgb h (9 / 10) (9 / 10)).2.2 ≤ 1) := by
  have hf0 : (0 : ℚ) ≤ h * 6 - ((Int.floor (h * 6) : ℤ) : ℚ) := by
    rw [Int.self_sub_floor]
    exact Int.fract_nonneg (h * 6)
  have hf1 : h * 6 - ((Int.floor (h * 6) : ℤ) : ℚ) < 1 := by
    rw [Int.self_sub_floor]
    exact Int.fract_lt_one (h * 6)
  rw [hsv_to_rgb_eq h hh]
  apply hsvSextant_bounds
  · norm_num
  · norm_num
  · nlinarith
  · nlinarith
  · norm_num
  · norm_num
  · nlinarith
  · nlinarith

/-- int(x * 255) lands in [0, 255] for x in [0, 1]. -/
theorem pyInt_scale_bounds (x : ℚ) (h0 : 0 ≤ x) (h1 : x ≤ 1) :
    0 ≤ pyInt (x * 255) ∧ pyInt (x * 255) ≤ 255 := by
  rw [pyInt_of_nonneg _ (by positivity)]
  constructor
  · exact Int.floor_nonneg.mpr (by positivity)
  · have hle : Int.floor (x * 255) ≤ Int.floor ((255 : ℚ)) :=
      Int.floor_le_floor (by linarith)
    have h255 : Int.floor ((255 : ℚ)) = 255 := by
      rw [show ((255 : ℚ)) = (((255 : ℤ)) : ℚ) by norm_num, Int.floor_intCast]
    omega

/-- C9 amended: the palette has exactly num_classes entries, the entry at
each index i is the fixed function colorOfIndex of i and num_classes (so
the index-to-color mapping is stable across calls), and every component is
an integer in [0, 255]; the entries are not pairwise distinct for every
num_classes. -/
theorem generate_colors_entries (num_classes i : ℕ) (hi : i < num_classes) :
    (generate_colors num_classes).length = num_classes ∧
    (generate_colors num_classes)[i]? = some (colorOfIndex num_classes i) ∧
    0 ≤ (colorOfIndex num_classes i).1 ∧ (colorOfIndex num_classes i).1 ≤ 255 ∧
    0 ≤ (colorOfIndex num_classes i).2.1 ∧ (colorOfIndex num_classes i).2.1 ≤ 255 ∧
    0 ≤ (colorOfIndex num_classes i).2.2 ∧ (colorOfIndex num_classes i).2.2 ≤ 255 := by
  have hlen : (generate_colors num_classes).length = num_classes := by
    simp [generate_colors]
  have hget : (generate_colors num_classes)[i]? = some (colorOfIndex num_classes i) := by
    simp [generate_colors, List.getElem?_map, List.getElem?_range, hi]
  have hh : (0 : ℚ) ≤ (i : ℚ) / (num_classes : ℚ) := by positivity
  have hb := hsv_component_bounds ((i : ℚ) / (num_classes : ℚ)) hh
  have hc : colorOfIndex num_classes i =
      (pyInt ((hsv_to_rgb ((i : ℚ) / (num_classes : ℚ)) (9 / 10) (9 / 10)).1 * 255),
       pyInt ((hsv_to_rgb ((i : ℚ) / (num_classes : ℚ)) (9 / 10) (9 / 10)).2.1 * 255),
       pyInt ((hsv_to_rgb ((i : ℚ) / (num_classes : ℚ)) (9 / 10) (9 / 10)).2.2 * 255)) := rfl
  rw [hc]
  exact ⟨hlen, hget,
    (pyInt_scale_bounds _ hb.1.1 hb.1.2).1, (pyInt_scale_bounds _ hb.1.1 hb.1.2).2,
    (pyInt_scale_bounds _ hb.2.1.1 hb.2.1.2).1, (pyInt_scale_bounds _ hb.2.1.1 hb.2.1.2).2,
    (pyInt_scale_bounds _ hb.2.2.1 hb.2.2.2).1, (pyInt_scale_bounds _ hb.2.2.1 hb.2.2.2).2⟩

/-- Witness for the amended C9 theorem at a one-class palette. -/
theorem generate_colors_entries_witness :
    (generate_colors 1).length = 1 ∧
    (generate_colors 1)[0]? = some (colorOfIndex 1 0) ∧
    0 ≤ (colorOfIndex 1 0).1 ∧ (colorOfIndex 1 0).1 ≤ 255 ∧
    0 ≤ (colorOfIndex 1 0).2.1 ∧ (colorOfIndex 1 0).2.1 ≤ 255 ∧
    0 ≤ (colorOfIndex 1 0).2.2 ∧ (colorOfIndex 1 0).2.2 ≤ 255 :=
  generate_colors_entries 1 0 (by norm_num)

end Final
